import Mathlib

/-!
Verification of the `claude-review-agent` tool (src/claude-review-agent.py).

The development shallowly embeds the program's data model and operations:
filesystem paths are lists of segments, the repository state carries the
existing filesystem entries, the branch list and the registered worktree
checkouts, and each Python function is translated into a Lean function over
this state.  External processes (`git`, the review agent) are modelled by
their documented effect on this state; outcomes of calls whose result the
program merely observes (ref resolution, the agent run) are inputs of the
embedded `main`.
-/

namespace ClaudeReviewAgent

/-- Line feed character, written via its code point. -/
def lineFeed : Char := Char.ofNat 10

/-- Apostrophe (single quote) character, written via its code point. -/
def apos : Char := Char.ofNat 39

/-- Python `str.strip()` on a character list: drop whitespace from both ends. -/
def trimChars (l : List Char) : List Char :=
  ((l.dropWhile Char.isWhitespace).reverse.dropWhile Char.isWhitespace).reverse

/-- Python `str.strip()` on a string. -/
def pyStrip (s : String) : String := String.mk (trimChars s.data)

/-- Accumulator loop of `splitCharsOn`: `acc` is the current piece reversed,
`out` the finished pieces reversed. -/
def splitCharsOnAux (sep : Char) : List Char → List Char → List (List Char) →
    List (List Char)
  | [], acc, out => (acc.reverse :: out).reverse
  | c :: cs, acc, out =>
    if c = sep then splitCharsOnAux sep cs [] (acc.reverse :: out)
    else splitCharsOnAux sep cs (c :: acc) out

/-- Python `str.split(sep)` for a single separator character: splits on every
occurrence and keeps empty pieces, so the result is never the empty list. -/
def splitCharsOn (sep : Char) (l : List Char) : List (List Char) :=
  splitCharsOnAux sep l [] []

/-- Python `s.split("\n")`. -/
def pySplitLines (s : String) : List String :=
  (splitCharsOn lineFeed s.data).map String.mk

/-- Python `s.split("/")`. -/
def pySplitSlash (s : String) : List String :=
  (splitCharsOn '/' s.data).map String.mk

/-- Python `s.startswith(pre)`. -/
def pyStartsWith (s pre : String) : Bool := decide (pre.data <+: s.data)

/-- Python `sep.join(parts)`. -/
def pyJoin (sep : String) : List String → String
  | [] => ""
  | [x] => x
  | x :: y :: rest => x ++ sep ++ pyJoin sep (y :: rest)

/-! ## Constants of the source program -/

/-- The branch namespace used for review branches (`BRANCH_PREFIX`). -/
def BRANCH_PREFIX : String := "claude-review-agent"

/-- The review branch namespace followed by the separating slash. -/
def reviewBranchPre : String := BRANCH_PREFIX ++ "/"

/-- The `ALLOWED_TOOLS` allow-list string passed to the agent tool. -/
def ALLOWED_TOOLS : String :=
  "Bash(git status) Bash(git diff:*) Bash(git log:*) Bash(git show:*) Bash(git add:*) Bash(git commit:*) Edit(./**)"

/-- Text of `PROMPT_TEMPLATE` before the `\x7bbranch\x7d` placeholder. -/
def promptBefore : String :=
  "\nUse the code-reviewer subagent to check this branch,\nadd fixup commits and print the number of new commits on the new branch "

/-- Text of `PROMPT_TEMPLATE` after the `\x7bbranch\x7d` placeholder. -/
def promptAfter : String := ".\n"

/-- Python `PROMPT_TEMPLATE.format(branch=branch)`. -/
def PROMPT_TEMPLATE (branch : String) : String :=
  promptBefore ++ branch ++ promptAfter

/-! ## Paths and the filesystem model

An absolute path is its list of segments.  The filesystem is the list of
existing entries (directories and files); a directory is empty when it exists
and no other entry extends it, mirroring
`current.exists() and not any(current.iterdir())` — in particular a missing
directory counts as not empty. -/

/-- A filesystem path as its list of segments. -/
abbrev FsPath := List String

/-- Python `path.parent`: all segments but the last. -/
def parentDir (p : FsPath) : FsPath := p.dropLast

/-- Python `pathlib`'s `p / s`: append the slash-separated segments of `s`. -/
def pathJoin (p : FsPath) (s : String) : FsPath := p ++ pySplitSlash s

/-- Python `p.exists()` over the modelled filesystem. -/
def entryExists (fs : List FsPath) (p : FsPath) : Bool := decide (p ∈ fs)

/-- Whether any filesystem entry lies strictly below `p`. -/
def dirHasEntry (fs : List FsPath) (p : FsPath) : Bool :=
  decide (∃ q ∈ fs, p <+: q ∧ q ≠ p)

/-- Python `current.exists() and not any(current.iterdir())`. -/
def isEmptyDir (fs : List FsPath) (p : FsPath) : Bool :=
  entryExists fs p && !dirHasEntry fs p

/-- Python `path.rmdir()`: remove the single entry `p`. -/
def removeEntry (fs : List FsPath) (p : FsPath) : List FsPath :=
  fs.filter (fun q => decide (q ≠ p))

/-- Remove a list of entries one after the other. -/
def removeEntries (fs : List FsPath) (l : List FsPath) : List FsPath :=
  l.foldl removeEntry fs

/-- Python `shutil.rmtree(p)`: remove `p` and everything below it. -/
def removeTree (fs : List FsPath) (p : FsPath) : List FsPath :=
  fs.filter (fun q => !decide (p <+: q))

/-! ## Repository state -/

/-- State of the repository and its filesystem: existing filesystem entries,
the branch list, and the registered worktree checkout paths. -/
structure RepoState where
  fs : List FsPath
  branches : List String
  worktrees : List FsPath
deriving DecidableEq

/-! ## The upward cleanup walk

`walkUpAux` is the loop of `cleanup_review_branch` that walks from the
worktree's parent towards the repository root, removing empty directories.
The fuel argument equals the length of the current path; since the loop
ascends one segment per iteration this bound is exact, and the function is
structurally recursive and hence executable. -/

/-- One loop of `while current != repo_dir and current.is_relative_to(repo_dir)`,
removing `current` while it is an existing empty directory.  Returns the new
filesystem and the list of removed directories, bottom-most first. -/
def walkUpAux : Nat → FsPath → List FsPath → FsPath → List FsPath × List FsPath
  | 0, _, fs, _ => (fs, [])
  | f + 1, repo, fs, cur =>
    if cur = repo then (fs, [])
    else if ¬ (repo <+: cur) then (fs, [])
    else if isEmptyDir fs cur = true then
      let r := walkUpAux f repo (removeEntry fs cur) (parentDir cur)
      (r.1, cur :: r.2)
    else (fs, [])

/-- The parent-directory pass of `cleanup_review_branch`, starting at `cur`. -/
def walkUp (repo : FsPath) (fs : List FsPath) (cur : FsPath) :
    List FsPath × List FsPath :=
  walkUpAux cur.length repo fs cur

/-- Iterated `parentDir`. -/
def iterParent : Nat → FsPath → FsPath
  | 0, p => p
  | k + 1, p => iterParent k (parentDir p)

/-- The chain `cur, cur.parent, …` of length `k`. -/
def chainFrom (cur : FsPath) : Nat → List FsPath
  | 0 => []
  | k + 1 => cur :: chainFrom (parentDir cur) k

/-- Each listed directory was an existing empty directory at the moment the
walk reached it, earlier removals taken into account. -/
def removedAllEmpty (fs : List FsPath) : List FsPath → Bool
  | [] => true
  | d :: ds => isEmptyDir fs d && removedAllEmpty (removeEntry fs d) ds

/-- A directory strictly between the repository root and the worktree path:
a proper extension of the root that is an ancestor of the worktree. -/
def strictlyBetween (repo wt d : FsPath) : Bool :=
  decide (repo ≠ d) && decide (repo <+: d) && decide (d <+: parentDir wt) &&
    decide (d ≠ wt)

/-! ## Operations of the source program -/

/-- The lines of the embedded agent definition template after its opening
`---` line, one list entry per line of the Python triple-quoted literal. -/
def agentTailLines : List String :=
  ["name: code-reviewer",
   "description: |",
   "  Use this agent when you need to perform a comprehensive code review of recent commits. This agent should be invoked:",
   "",
   "  1. After completing a logical chunk of work (feature, bug fix, or refactor)",
   "  2. Before merging a branch or creating a pull request",
   "  3. When the user explicitly requests a code review",
   "  4. When the user mentions reviewing, checking, or validating their recent code changes",
   "",
   "  Examples:",
   "  - User: \"I just implemented the authentication module, can you review it?\"",
   "    Assistant: \"I\x27ll use the code-reviewer agent to perform a comprehensive review of your authentication implementation.\"",
   "",
   "  - User: \"I\x27ve finished refactoring the database layer. Let\x27s make sure everything looks good.\"",
   "    Assistant: \"Let me launch the code-reviewer agent to examine your database refactoring work.\"",
   "",
   "  - User: \"I added error handling to the API endpoints\"",
   "    Assistant: \"Great! I\x27ll use the code-reviewer agent to review your error handling implementation and ensure it meets our quality standards.\"",
   "",
   "  - User: \"Review my recent commits\"",
   "    Assistant: \"I\x27ll use the code-reviewer agent to analyze your recent commits and provide detailed feedback.\"",
   "",
   "  Do NOT use this agent for:",
   "  - Initial code generation or writing new code",
   "  - General questions about the codebase",
   "  - Non-code related tasks",
   "tools: Glob, Grep, Read, WebFetch, TodoWrite, BashOutput, KillShell, Edit, Write, NotebookEdit, Bash",
   "model: sonnet",
   "---",
   "",
   "You are a senior code reviewer with deep expertise in software engineering, security, and best practices. Your role is to ensure code quality, maintainability, and security through thorough, constructive reviews.",
   "",
   "## Review Process",
   "",
   "When invoked, follow this exact sequence:",
   "",
   "1. **Identify commits to review**: Use \x60git log\x60 to find all new commits on the current branch that are not in the main/master branch. Review them in chronological order (oldest first).",
   "",
   "2. **Examine each commit**: For each commit:",
   "   - Use \x60git show <commit-hash>\x60 to see the full diff",
   "   - Focus on modified and added files",
   "   - Understand the context and purpose of the changes",
   "",
   "3. **Analyze against quality checklist**:",
   "   - **Simplicity & Readability**: Is the code easy to understand? Are complex operations broken down?",
   "   - **Naming**: Do functions, variables, and types have clear, descriptive names?",
   "   - **DRY Principle**: Is there duplicated code that should be abstracted?",
   "   - **Error Handling**: Are errors handled appropriately? Are edge cases covered?",
   "   - **Security**: Are there exposed secrets, API keys, or security vulnerabilities?",
   "   - **Input Validation**: Is user input validated and sanitized?",
   "   - **Testing**: Is there adequate test coverage for the changes?",
   "   - **Performance**: Are there obvious performance issues or inefficiencies?",
   "   - **Project Standards**: Does the code follow the project\x27s conventions (check CLAUDE.md for specific standards)?",
   "",
   "4. **Provide inline feedback**: For each issue found:",
   "   - Add a comment in the code near the problematic line",
   "   - Use this format but adjust the comment style based on the language:",
   "     \x60\x60\x60",
   "     // REVIEW [CRITICAL|WARNING|SUGGESTION]: <brief description>",
   "     // Current: <problematic code pattern>",
   "     // Recommended: <specific fix with code example>",
   "     // Reason: <explanation of why this matters>",
   "     \x60\x60\x60",
   "",
   "5. **Create FIXUP commits**: For each distinct piece of feedback:",
   "   - Create a fixup commit targeting the reviewed commit: \x60git commit --fixup=<commit-hash>\x60",
   "   - The commit message should reference the issue and be descriptive",
   "   - Group related feedback into a single fixup commit when appropriate",
   "",
   "6. **Summarize findings**: After reviewing all commits, provide a summary organized by priority:",
   "   - **Critical Issues** (must fix before merge): Security vulnerabilities, data loss risks, broken functionality",
   "   - **Warnings** (should fix): Code quality issues, maintainability concerns, missing error handling",
   "   - **Suggestions** (consider improving): Style improvements, performance optimizations, refactoring opportunities",
   "",
   "## Feedback Guidelines",
   "",
   "- **Be specific**: Don\x27t just say \"improve error handling\" - show exactly what to add",
   "- **Provide examples**: Include code snippets demonstrating the fix",
   "- **Explain reasoning**: Help the developer understand why the change matters",
   "- **Be constructive**: Frame feedback positively and focus on improvement",
   "- **Consider context**: Take into account project-specific standards from CLAUDE.md",
   "- **Balance thoroughness with pragmatism**: Don\x27t nitpick trivial style issues if the code is otherwise solid",
   "",
   "## Security Focus Areas",
   "",
   "- Authentication and authorization flaws",
   "- SQL injection, command injection, or other injection vulnerabilities",
   "- Exposed credentials, API keys, or sensitive data",
   "- Insufficient input validation",
   "- Insecure cryptographic practices",
   "- Race conditions or concurrency issues",
   "- Resource exhaustion vulnerabilities",
   "",
   "## Example Review Comment",
   "",
   "\x60\x60\x60rust",
   "// REVIEW [WARNING]: Missing error handling for peer disconnection",
   "// Current:",
   "peer.send_message(msg).await;",
   "",
   "// Recommended:",
   "if let Err(e) = peer.send_message(msg).await \x7b",
   "    log::warn!(\"Failed to send message to peer \x7b\x7d: \x7b\x7d\", peer.unique_name, e);",
   "    // Consider removing peer from active peers list",
   "    self.peers.remove(&peer.unique_name).await;",
   "\x7d",
   "",
   "// Reason: If a peer disconnects unexpectedly, send_message will fail.",
   "// Without handling this error, we may continue trying to send to a dead peer,",
   "// wasting resources and potentially causing message loss.",
   "\x60\x60\x60",
   "",
   "Begin your review immediately upon invocation. Work systematically through each commit, providing thorough, actionable feedback that will help maintain the high quality standards of this codebase.",
   "",
   "## Important",
   "",
   "Remember, the process! You *must* add the review feedback inline, in the code, as comments, and commit the feedback that belongs together in new FIXUP commits. Also remember the format of the reviews. The output shall only be a single line: the number of FIXUP commits added."]

/-- The lines of the agent template: the opening delimiter followed by the
remaining lines. -/
def agentBodyLines : List String := "---" :: agentTailLines

/-- The embedded agent definition template (`AGENT_CONTENT`), the Python
triple-quoted literal rendered as its lines joined by newlines; the literal
ends with a final newline. -/
def AGENT_CONTENT : String := pyJoin "\n" agentBodyLines ++ "\n"

/-- Result of `parse_agent_yaml_to_json`: the frontmatter lines between the
two `---` delimiters and the prompt body after the closing delimiter.  The
`yaml.safe_load`/`json.dumps` serialization of the frontmatter fields is kept
abstract (see `agentsJsonRepr`); no claim inspects the serialized payload. -/
structure AgentDef where
  frontmatter : List String
  promptBody : String
deriving DecidableEq

/-- The lines of the stripped agent content, `agent_content.strip().split("\n")`. -/
def contentLines (content : String) : List String :=
  pySplitLines (pyStrip content)

/-- Whether the first line of the template starts with the opening delimiter,
`lines[0].startswith("---")`. -/
def hasOpeningDelimiter (content : String) : Bool :=
  match contentLines content with
  | [] => false
  | l0 :: _ => pyStartsWith l0 "---"

/-- Whether some later line is the closing delimiter,
`line.strip() == "---"` for a line after the first. -/
def hasClosingDelimiter (content : String) : Bool :=
  ((contentLines content).drop 1).any (fun l => pyStrip l == "---")

/-- Python `parse_agent_yaml_to_json`: split the template into lines, require
the opening `---` on the first line and a closing `---` line, and return the
frontmatter lines with the stripped prompt body.  The (unreachable) empty
line list is mapped to the opening-delimiter error. -/
def parse_agent_yaml_to_json (content : String) : Except String AgentDef :=
  match contentLines content with
  | [] => Except.error "Agent content must start with ---"
  | l0 :: rest =>
    if pyStartsWith l0 "---" = false then
      Except.error "Agent content must start with ---"
    else
      match rest.findIdx? (fun l => pyStrip l == "---") with
      | Option.none =>
        Except.error "Agent content must have closing --- for frontmatter"
      | Option.some i =>
        Except.ok ⟨rest.take i, pyStrip (pyJoin "\n" (rest.drop (i + 1)))⟩

/-- Characters `shlex.quote` leaves unquoted: ASCII word characters and
the characters `@ % + = : , . /` and the dash. -/
def shlexSafeChar (c : Char) : Bool :=
  c.isAlphanum || c = '_' || c = '@' || c = '%' || c = '+' || c = '=' ||
    c = ':' || c = ',' || c = '.' || c = '/' || c = '-'

/-- Escape of one character inside single quotes: an apostrophe becomes
`\x27"\x27"\x27`, every other character stands for itself. -/
def shEscapeChar (c : Char) : List Char :=
  if c = apos then [apos, '"', apos, '"', apos] else [c]

/-- Python `shlex.quote`. -/
def shlexQuote (s : String) : String :=
  if s = "" then String.mk [apos, apos]
  else if s.data.all shlexSafeChar then s
  else String.mk ([apos] ++ s.data.flatMap shEscapeChar ++ [apos])

/-- Abstract serialization standing for
`json.dumps([\x7bname, description, tools, model, prompt\x7d])`. -/
def agentsJsonRepr (a : AgentDef) : String :=
  "[" ++ pyJoin "\n" a.frontmatter ++ "|" ++ a.promptBody ++ "]"

/-- The review branch name `f"\x7bBRANCH_PREFIX\x7d/\x7borig_branch\x7d-\x7bdate\x7d-\x7brand\x7d"`. -/
def reviewBranchName (origBranch rand date : String) : String :=
  reviewBranchPre ++ origBranch ++ "-" ++ date ++ "-" ++ rand

/-- Whether a branch name is listed by `git branch --list "\x7bBRANCH_PREFIX\x7d/*"`. -/
def isReviewBranch (b : String) : Bool := pyStartsWith b reviewBranchPre

/-- Python `git branch -D b`: drop the branch from the branch list. -/
def deleteBranch (s : RepoState) (b : String) : RepoState :=
  { s with branches := s.branches.filter (fun x => decide (x ≠ b)) }

/-- Python `purge_review_branches`: list all branches under the review
namespace, skip empty lines, and force-delete each listed branch.  Returns
the new state and the deleted branches in order. -/
def purge_review_branches (s : RepoState) : RepoState × List String :=
  let listed := s.branches.filter isReviewBranch
  let deleted := listed.filter (fun b => decide (b ≠ ""))
  (deleted.foldl deleteBranch s, deleted)

/-- All the directories `git worktree add` creates for the checkout path:
every proper extension of the repository root up to the worktree path. -/
def ancestorsToCreate (repoDir p : FsPath) : List FsPath :=
  ((List.range (p.length + 1)).map (fun n => p.take n)).filter
    (fun q => decide (repoDir.length < q.length) && decide (repoDir <+: q))

/-- Python `git worktree add --quiet -b branch worktree_dir orig_branch`:
create the branch, the checkout directory with its parents (the checkout
holds at least its `.git` link file), and register the worktree. -/
def gitWorktreeAdd (repoDir : FsPath) (s : RepoState) (branch : String)
    (worktreeDir : FsPath) : RepoState :=
  { fs := s.fs ++ ancestorsToCreate repoDir worktreeDir ++ [worktreeDir ++ [".git"]],
    branches := s.branches ++ [branch],
    worktrees := s.worktrees ++ [worktreeDir] }

/-- Python `create_review_branch`: synthesize the branch name from the random
suffix and date, place the checkout at `repo_dir / branch`, and run
`git worktree add`.  Returns the new state, the worktree path and the branch. -/
def create_review_branch (repoDir : FsPath) (s : RepoState)
    (origBranch rand date : String) : RepoState × FsPath × String :=
  let branch := reviewBranchName origBranch rand date
  let worktreeDir := pathJoin repoDir branch
  (gitWorktreeAdd repoDir s branch worktreeDir, worktreeDir, branch)

/-- Python `git worktree remove --force <branch>` run from the repository
root with `check=False`: when the path names a registered worktree, drop the
registration and its directory tree; otherwise the failing call is ignored. -/
def gitWorktreeRemoveStep (repoDir : FsPath) (s : RepoState) (branch : String) :
    RepoState :=
  let p := pathJoin repoDir branch
  if p ∈ s.worktrees then
    { s with worktrees := s.worktrees.filter (fun q => decide (q ≠ p)),
             fs := removeTree s.fs p }
  else s

/-- Python `if worktree_dir.exists(): shutil.rmtree(worktree_dir, ignore_errors=True)`. -/
def rmtreeStep (s : RepoState) (worktreeDir : FsPath) : RepoState :=
  if worktreeDir ∈ s.fs then { s with fs := removeTree s.fs worktreeDir } else s

/-- Where an exception is injected inside the `try` body of
`cleanup_review_branch`; `atWalk k` raises after `k` iterations of the
parent-directory loop. -/
inductive CleanupFault where
  | nofault
  | atWorktreeRemove
  | atRmtree
  | atWalk (k : Nat)
deriving DecidableEq

/-- The warning printed by the `except` handler of `cleanup_review_branch`. -/
def cleanupWarningMsg : String := "Warning during cleanup"

/-- Python `cleanup_review_branch`: remove the worktree by branch name
(non-strict), force-remove the directory if it still exists, then walk empty
parent directories up towards the repository root.  Any exception inside the
body (modelled by `fault`) is caught and demoted to a warning, so the
function is total: it returns the state reached at the fault together with
the optional warning message. -/
def cleanup_review_branch (fault : CleanupFault) (repoDir : FsPath)
    (s : RepoState) (worktreeDir : FsPath) (branch : String) :
    RepoState × Option String :=
  match fault with
  | CleanupFault.atWorktreeRemove => (s, Option.some cleanupWarningMsg)
  | CleanupFault.atRmtree =>
    (gitWorktreeRemoveStep repoDir s branch, Option.some cleanupWarningMsg)
  | CleanupFault.atWalk k =>
    let s2 := rmtreeStep (gitWorktreeRemoveStep repoDir s branch) worktreeDir
    ({ s2 with fs := (walkUpAux k repoDir s2.fs (parentDir worktreeDir)).1 },
     Option.some cleanupWarningMsg)
  | CleanupFault.nofault =>
    let s2 := rmtreeStep (gitWorktreeRemoveStep repoDir s branch) worktreeDir
    ({ s2 with fs := (walkUp repoDir s2.fs (parentDir worktreeDir)).1 },
     Option.none)


/-! ## The review invoker and the entry point -/

/-- Outcome of the external review agent process, an input of the model:
success, non-zero exit, or interruption of the synchronous call. -/
inductive ReviewOutcome where
  | ok
  | failed
  | interrupted
deriving DecidableEq

/-- Result of one step of the orchestration: normal return, a raised
exception carrying a message, or an interruption. -/
inductive StepResult where
  | ok
  | errorStep (msg : String)
  | interrupted
deriving DecidableEq

/-- What `run_claude_review` did: the lines it printed, the external review
agent command lines it executed, and how it returned. -/
structure ReviewRun where
  printed : List String
  claudeCmds : List (List String)
  outcome : StepResult
deriving DecidableEq

/-- The argument vector of the external review agent invocation. -/
def claudeCmd (agentsJson prompt : String) : List String :=
  ["claude", "--allowed-tools", ALLOWED_TOOLS, "--agents", agentsJson,
   "-p", prompt]

/-- The progress line printed before the agent runs. -/
def ponderingLine : String :=
  "Claude is pondering, contemplating, mulling, puzzling, meditating, etc."

/-- Python `str(path)` for the modelled segment paths. -/
def pathToString (p : FsPath) : String := pyJoin "/" p

/-- The dry-run output: the would-be working directory and the fully quoted
command line. -/
def dryRunLines (worktreeDir : FsPath) (cmd : List String) : List String :=
  ["Would execute command:",
   "  cd " ++ shlexQuote (pathToString worktreeDir),
   "  " ++ pyJoin " " (cmd.map shlexQuote)]

/-- Python `run_claude_review`: parse the agent template (raising on a
malformed template before any external command), build the agent command,
and either print it (dry run) or execute it, re-raising a non-zero exit. -/
def run_claude_review (worktreeDir : FsPath) (branch : String)
    (dryRun : Bool) (agentContent : String) (claudeOutcome : ReviewOutcome) :
    ReviewRun :=
  match parse_agent_yaml_to_json agentContent with
  | Except.error e => ⟨[], [], StepResult.errorStep e⟩
  | Except.ok agent =>
    let cmd := claudeCmd (agentsJsonRepr agent) (PROMPT_TEMPLATE branch)
    if dryRun then ⟨dryRunLines worktreeDir cmd, [], StepResult.ok⟩
    else
      match claudeOutcome with
      | ReviewOutcome.ok => ⟨[ponderingLine], [cmd], StepResult.ok⟩
      | ReviewOutcome.failed =>
        ⟨[ponderingLine, "Error running claude"], [cmd],
         StepResult.errorStep "claude returned non-zero"⟩
      | ReviewOutcome.interrupted =>
        ⟨[ponderingLine], [cmd], StepResult.interrupted⟩

/-- How the process ends: `sys.exit` with a code, or an interruption that
propagates after the `finally` block ran. -/
inductive ExitStatus where
  | code (n : Nat)
  | interrupted
deriving DecidableEq

/-- The command-line flags of one invocation; `repoIsDir` is the result of
the `repo_dir.is_dir()` check on the resolved positional path. -/
structure Args where
  repoIsDir : Bool
  dryRun : Bool
  purgeReviews : Bool
deriving DecidableEq

/-- Results of the external calls `main` merely observes: the ref
resolution of `get_branch`, the random suffix and date used for the branch
name, whether `git worktree add` succeeds, the agent outcome, and where (if
anywhere) cleanup raises. -/
structure Oracle where
  branchResolution : Except Unit String
  rand : String
  date : String
  worktreeAddOk : Bool
  claudeOutcome : ReviewOutcome
  cleanupFault : CleanupFault

/-- Everything one invocation of the tool did: exit status, final repository
state, printed lines, executed review-agent commands, whether the cleanup
step was invoked, the branches deleted by purge, and the cleanup warning. -/
structure MainResult where
  exit : ExitStatus
  state : RepoState
  printed : List String
  claudeCmds : List (List String)
  cleanupRan : Bool
  purged : List String
  cleanupWarning : Option String
deriving DecidableEq

/-- The create/review/cleanup sequence of `main` once the guards passed: the
`try` body runs `create_review_branch` (which succeeded) and
`run_claude_review`, the exit status is fixed by the review outcome, and the
`finally` block runs `cleanup_review_branch` since the worktree and branch
variables are set. -/
def mainReview (repoDir : FsPath) (s : RepoState) (origBranch : String)
    (dryRun : Bool) (o : Oracle) : MainResult :=
  let c := create_review_branch repoDir s origBranch o.rand o.date
  let rr := run_claude_review c.2.1 c.2.2 dryRun AGENT_CONTENT
    o.claudeOutcome
  let primary : ExitStatus :=
    match rr.outcome with
    | StepResult.ok => ExitStatus.code 0
    | StepResult.errorStep _ => ExitStatus.code 1
    | StepResult.interrupted => ExitStatus.interrupted
  let tailLines : List String :=
    match rr.outcome with
    | StepResult.ok =>
      ["", "The review is done. Check out branch " ++ c.2.2]
    | StepResult.errorStep e => ["Error: " ++ e]
    | StepResult.interrupted => []
  let cl := cleanup_review_branch o.cleanupFault repoDir c.1 c.2.1 c.2.2
  ⟨primary, cl.1,
   ["Reviewing " ++ origBranch ++ " in " ++ pathToString repoDir] ++
     rr.printed ++ tailLines ++
     (match cl.2 with
      | Option.some w => [w]
      | Option.none => []),
   rr.claudeCmds, true, [], cl.2⟩

/-- Python `main`: validate the repository directory, resolve the branch,
run the purge when requested, and otherwise create the review worktree, run
the review, and clean up in the `finally` block whenever (and only when)
creation returned.  The exit status is fixed by the create/review phase;
cleanup runs afterwards and cannot change it. -/
def main (repoDir : FsPath) (s : RepoState) (args : Args) (o : Oracle) :
    MainResult :=
  if args.repoIsDir = false then
    ⟨ExitStatus.code 1, s, ["Error: not a directory"], [], false, [],
     Option.none⟩
  else
    match o.branchResolution with
    | Except.error _ =>
      ⟨ExitStatus.code 1, s, ["Error: Unable to find branch in this repo"],
       [], false, [], Option.none⟩
    | Except.ok origBranch =>
      if args.purgeReviews then
        let r := purge_review_branches s
        ⟨ExitStatus.code 0, r.1, r.2.map (fun b => "Deleting branch: " ++ b),
         [], false, r.2, Option.none⟩
      else if o.worktreeAddOk = false then
        ⟨ExitStatus.code 1, s, ["Error: worktree add failed"], [], false, [],
         Option.none⟩
      else
        mainReview repoDir s origBranch args.dryRun o

/-! ## Auxiliary predicates and concrete demonstration inputs -/

/-- A lowercase hexadecimal digit, the alphabet of `uuid4` text. -/
def isHexChar (c : Char) : Bool :=
  c.isDigit || (decide (Char.ofNat 97 ≤ c) && decide (c ≤ Char.ofNat 102))

/-- A date in `%Y-%m-%d` shape: ten characters `DDDD-DD-DD` with `D` a digit. -/
def isIsoDate (d : String) : Bool :=
  match d.data with
  | [y1, y2, y3, y4, s1, m1, m2, s2, d1, d2] =>
    y1.isDigit && y2.isDigit && y3.isDigit && y4.isDigit &&
      decide (s1 = '-') && m1.isDigit && m2.isDigit && decide (s2 = '-') &&
      d1.isDigit && d2.isDigit
  | _ => false

/-- A small concrete repository directory used in concrete instances. -/
def demoRepoDir : FsPath := ["tmp", "r"]

/-- A small concrete repository state: the root directories exist, one branch
`main`, no registered worktree. -/
def demoState : RepoState := ⟨[["tmp"], ["tmp", "r"]], ["main"], []⟩

/-- Flags of a dry-run invocation on an existing repository directory. -/
def demoDryArgs : Args := ⟨true, true, false⟩

/-- Flags of a regular (wet) invocation. -/
def demoWetArgs : Args := ⟨true, false, false⟩

/-- Flags of a purge invocation. -/
def demoPurgeArgs : Args := ⟨true, false, true⟩

/-- A concrete oracle: `main` resolves, creation succeeds, the agent
succeeds, cleanup does not fault. -/
def demoOracle : Oracle :=
  ⟨Except.ok "main", "0a1b2c3d", "2026-10-12", true, ReviewOutcome.ok,
   CleanupFault.nofault⟩

/-- An oracle whose branch resolution fails. -/
def demoFailOracle : Oracle :=
  ⟨Except.error (), "0a1b2c3d", "2026-10-12", true, ReviewOutcome.ok,
   CleanupFault.nofault⟩

/-- An oracle for which `git worktree add` fails. -/
def demoNoAddOracle : Oracle :=
  ⟨Except.ok "main", "0a1b2c3d", "2026-10-12", false, ReviewOutcome.ok,
   CleanupFault.nofault⟩

/-- A repository state with two review branches and two other branches. -/
def demoPurgeState : RepoState :=
  ⟨[["tmp"], ["tmp", "r"]],
   ["main", "claude-review-agent/main-2026-10-11-00112233", "dev",
    "claude-review-agent/feature/x-2026-10-11-44556677"],
   []⟩

/-! ## Lemmas about removal and the cleanup walk -/

theorem mem_of_mem_removeEntry {fs : List FsPath} {p q : FsPath}
    (h : q ∈ removeEntry fs p) : q ∈ fs :=
  (List.mem_filter.mp h).1

theorem not_mem_removeEntry_self (fs : List FsPath) (p : FsPath) :
    p ∉ removeEntry fs p := by
  intro h
  have h2 := (List.mem_filter.mp h).2
  simp at h2

theorem not_mem_removeTree_self (fs : List FsPath) (p : FsPath) :
    p ∉ removeTree fs p := by
  intro h
  have h2 := (List.mem_filter.mp h).2
  simp at h2

theorem mem_walkUpAux_fst {q : FsPath} :
    ∀ (f : Nat) (repo : FsPath) (fs : List FsPath) (cur : FsPath),
      q ∈ (walkUpAux f repo fs cur).1 → q ∈ fs := by
  intro f
  induction f with
  | zero =>
    intro repo fs cur h
    simpa [walkUpAux] using h
  | succ f ih =>
    intro repo fs cur h
    by_cases h1 : cur = repo
    · simpa [walkUpAux, h1] using h
    · by_cases h2 : repo <+: cur
      · by_cases h3 : isEmptyDir fs cur = true
        · simp only [walkUpAux, if_neg h1, if_neg (not_not_intro h2),
            if_pos h3] at h
          exact mem_of_mem_removeEntry (ih _ _ _ h)
        · simpa [walkUpAux, h1, h2, h3] using h
      · simpa [walkUpAux, h1, h2] using h

theorem walkUpAux_idem :
    ∀ (f : Nat) (repo : FsPath) (fs : List FsPath) (cur : FsPath),
      walkUpAux f repo (walkUpAux f repo fs cur).1 cur
        = ((walkUpAux f repo fs cur).1, []) := by
  intro f
  induction f with
  | zero => intro repo fs cur; simp [walkUpAux]
  | succ f ih =>
    intro repo fs cur
    by_cases h1 : cur = repo
    · simp [walkUpAux, h1]
    · by_cases h2 : repo <+: cur
      · by_cases h3 : isEmptyDir fs cur = true
        · have hout : cur ∉ (walkUpAux f repo (removeEntry fs cur)
              (parentDir cur)).1 := fun hc =>
            not_mem_removeEntry_self fs cur (mem_walkUpAux_fst _ _ _ _ hc)
          have hne : isEmptyDir (walkUpAux f repo (removeEntry fs cur)
              (parentDir cur)).1 cur = false := by
            simp [isEmptyDir, entryExists, hout]
          simp [walkUpAux, h1, h2, h3, hne]
        · simp [walkUpAux, h1, h2, h3]
      · simp [walkUpAux, h1, h2]

/-! ## Lemmas about the cleanup steps -/

theorem gitWorktreeRemoveStep_branches (repoDir : FsPath) (s : RepoState)
    (branch : String) :
    (gitWorktreeRemoveStep repoDir s branch).branches = s.branches := by
  unfold gitWorktreeRemoveStep
  by_cases h : pathJoin repoDir branch ∈ s.worktrees <;> simp [h]

theorem gitWorktreeRemoveStep_not_mem_worktrees (repoDir : FsPath)
    (s : RepoState) (branch : String) :
    pathJoin repoDir branch ∉ (gitWorktreeRemoveStep repoDir s branch).worktrees := by
  unfold gitWorktreeRemoveStep
  by_cases h : pathJoin repoDir branch ∈ s.worktrees
  · simp only [h, if_true]
    intro hc
    have h2 := (List.mem_filter.mp hc).2
    simp at h2
  · simp [h]

theorem rmtreeStep_branches (s : RepoState) (worktreeDir : FsPath) :
    (rmtreeStep s worktreeDir).branches = s.branches := by
  unfold rmtreeStep
  split <;> rfl

theorem rmtreeStep_worktrees (s : RepoState) (worktreeDir : FsPath) :
    (rmtreeStep s worktreeDir).worktrees = s.worktrees := by
  unfold rmtreeStep
  split <;> rfl

theorem rmtreeStep_not_mem_fs (s : RepoState) (worktreeDir : FsPath) :
    worktreeDir ∉ (rmtreeStep s worktreeDir).fs := by
  unfold rmtreeStep
  by_cases h : worktreeDir ∈ s.fs
  · simp only [if_pos h]
    exact not_mem_removeTree_self _ _
  · simp only [if_neg h]
    exact h

theorem cleanup_fst_branches (fault : CleanupFault) (repoDir : FsPath)
    (s : RepoState) (worktreeDir : FsPath) (branch : String) :
    (cleanup_review_branch fault repoDir s worktreeDir branch).1.branches
      = s.branches := by
  cases fault <;>
    simp [cleanup_review_branch, rmtreeStep_branches,
      gitWorktreeRemoveStep_branches]

theorem cleanup_nofault_not_mem_fs (repoDir : FsPath) (s : RepoState)
    (worktreeDir : FsPath) (branch : String) :
    worktreeDir ∉
      (cleanup_review_branch CleanupFault.nofault repoDir s worktreeDir
        branch).1.fs := by
  intro hc
  simp only [cleanup_review_branch, walkUp] at hc
  exact rmtreeStep_not_mem_fs _ _ (mem_walkUpAux_fst _ _ _ _ hc)

/-- C8: cleanup is idempotent — running `cleanup_review_branch` a second time
on the same session raises no error (no warning is produced) and returns the
state of the first run unchanged. -/
theorem cleanup_idempotent (repoDir : FsPath) (s : RepoState)
    (worktreeDir : FsPath) (branch : String) :
    cleanup_review_branch CleanupFault.nofault repoDir
        (cleanup_review_branch CleanupFault.nofault repoDir s worktreeDir
          branch).1 worktreeDir branch
      = ((cleanup_review_branch CleanupFault.nofault repoDir s worktreeDir
          branch).1,
         Option.none) := by
  have hwt : pathJoin repoDir branch ∉
      (cleanup_review_branch CleanupFault.nofault repoDir s worktreeDir
        branch).1.worktrees := by
    simp only [cleanup_review_branch]
    show pathJoin repoDir branch ∉
      (rmtreeStep (gitWorktreeRemoveStep repoDir s branch)
        worktreeDir).worktrees
    rw [rmtreeStep_worktrees]
    exact gitWorktreeRemoveStep_not_mem_worktrees repoDir s branch
  have hfs : worktreeDir ∉
      (cleanup_review_branch CleanupFault.nofault repoDir s worktreeDir
        branch).1.fs :=
    cleanup_nofault_not_mem_fs repoDir s worktreeDir branch
  have g1 : gitWorktreeRemoveStep repoDir
      (cleanup_review_branch CleanupFault.nofault repoDir s worktreeDir
        branch).1 branch
      = (cleanup_review_branch CleanupFault.nofault repoDir s worktreeDir
        branch).1 := by
    unfold gitWorktreeRemoveStep
    rw [if_neg hwt]
  conv_lhs => rw [cleanup_review_branch]
  rw [g1]
  have g2 : rmtreeStep
      (cleanup_review_branch CleanupFault.nofault repoDir s worktreeDir
        branch).1 worktreeDir
      = (cleanup_review_branch CleanupFault.nofault repoDir s worktreeDir
        branch).1 := by
    unfold rmtreeStep
    rw [if_neg hfs]
  rw [g2]
  have g3 : (walkUp repoDir
      (cleanup_review_branch CleanupFault.nofault repoDir s worktreeDir
        branch).1.fs (parentDir worktreeDir)).1
      = (cleanup_review_branch CleanupFault.nofault repoDir s worktreeDir
        branch).1.fs := by
    show (walkUpAux (parentDir worktreeDir).length repoDir
        (walkUpAux (parentDir worktreeDir).length repoDir
          (rmtreeStep (gitWorktreeRemoveStep repoDir s branch)
            worktreeDir).fs (parentDir worktreeDir)).1
        (parentDir worktreeDir)).1
      = (walkUpAux (parentDir worktreeDir).length repoDir
          (rmtreeStep (gitWorktreeRemoveStep repoDir s branch)
            worktreeDir).fs (parentDir worktreeDir)).1
    rw [walkUpAux_idem]
  rw [g3]

/-! ## The specification of the cleanup walk -/

theorem parentDir_isPrefixOfSelf (p : FsPath) : parentDir p <+: p :=
  List.dropLast_prefix p

theorem walkUpAux_spec :
    ∀ (f : Nat) (repo : FsPath) (fs : List FsPath) (cur : FsPath),
      cur.length ≤ f →
      ((walkUpAux f repo fs cur).2.all
          (fun d => decide (repo ≠ d) && decide (repo <+: d) &&
            decide (d <+: cur)) = true) ∧
      removedAllEmpty fs (walkUpAux f repo fs cur).2 = true ∧
      (walkUpAux f repo fs cur).2
        = chainFrom cur (walkUpAux f repo fs cur).2.length ∧
      (walkUpAux f repo fs cur).1
        = removeEntries fs (walkUpAux f repo fs cur).2 ∧
      (iterParent (walkUpAux f repo fs cur).2.length cur = repo ∨
       ¬ (repo <+: iterParent (walkUpAux f repo fs cur).2.length cur) ∨
       isEmptyDir (walkUpAux f repo fs cur).1
         (iterParent (walkUpAux f repo fs cur).2.length cur) = false) := by
  intro f
  induction f with
  | zero =>
    intro repo fs cur hf
    have hc : cur = [] := List.length_eq_zero.mp (Nat.le_zero.mp hf)
    subst hc
    refine ⟨rfl, rfl, rfl, rfl, ?_⟩
    by_cases hr : repo = []
    · exact Or.inl (by simpa [iterParent] using hr.symm)
    · refine Or.inr (Or.inl ?_)
      simp only [walkUpAux, List.length_nil, iterParent]
      intro hpre
      exact hr (List.eq_nil_of_prefix_nil hpre)
  | succ f ih =>
    intro repo fs cur hf
    by_cases h1 : cur = repo
    · have hw : walkUpAux (f + 1) repo fs cur = (fs, []) := by
        simp [walkUpAux, h1]
      rw [hw]
      exact ⟨rfl, rfl, rfl, rfl, Or.inl (by simpa [iterParent] using h1)⟩
    · by_cases h2 : repo <+: cur
      · by_cases h3 : isEmptyDir fs cur = true
        · have hcne : cur ≠ [] := by
            intro hc
            subst hc
            exact h1 (List.eq_nil_of_prefix_nil h2).symm
          have hlen : (parentDir cur).length ≤ f := by
            have hd := List.length_dropLast cur
            have hpos : 0 < cur.length := List.length_pos.mpr hcne
            unfold parentDir
            omega
          obtain ⟨ha, he, hc, hr, hs⟩ :=
            ih repo (removeEntry fs cur) (parentDir cur) hlen
          have hw : walkUpAux (f + 1) repo fs cur
              = ((walkUpAux f repo (removeEntry fs cur) (parentDir cur)).1,
                 cur ::
                   (walkUpAux f repo (removeEntry fs cur)
                     (parentDir cur)).2) := by
            simp [walkUpAux, h1, h2, h3]
          rw [hw]
          refine ⟨?_, ?_, ?_, ?_, ?_⟩
          · have ha2 : (walkUpAux f repo (removeEntry fs cur)
                (parentDir cur)).2.all
                  (fun d => decide (repo ≠ d) && decide (repo <+: d) &&
                    decide (d <+: cur)) = true := by
              rw [List.all_eq_true] at ha ⊢
              intro d hd
              have h4 := ha d hd
              simp only [Bool.and_eq_true, decide_eq_true_eq] at h4 ⊢
              exact ⟨⟨h4.1.1, h4.1.2⟩, h4.2.trans (parentDir_isPrefixOfSelf cur)⟩
            simp only [List.all_cons, ha2, Bool.and_true, Bool.and_eq_true,
              decide_eq_true_eq]
            exact ⟨⟨fun h => h1 h.symm, h2⟩, List.prefix_rfl⟩
          · simp [removedAllEmpty, h3, he]
          · simp only [List.length_cons, chainFrom]
            exact congrArg (cur :: ·) hc
          · exact hr
          · simpa [iterParent, List.length_cons] using hs
        · have hw : walkUpAux (f + 1) repo fs cur = (fs, []) := by
            simp [walkUpAux, h1, h2, h3]
          rw [hw]
          refine ⟨rfl, rfl, rfl, rfl, Or.inr (Or.inr ?_)⟩
          simp only [List.length_nil, iterParent]
          simpa using h3
      · have hw : walkUpAux (f + 1) repo fs cur = (fs, []) := by
          simp [walkUpAux, h1, h2]
        rw [hw]
        exact ⟨rfl, rfl, rfl, rfl,
          Or.inr (Or.inl (by simpa [iterParent] using h2))⟩

/-- C6: in the parent-directory pass of cleanup, starting at the worktree's
parent, every removed directory lies strictly between the worktree path and
the repository root and was an existing empty directory at the moment it was
removed; the repository root itself is never removed; the removed
directories form the contiguous ancestor chain upward from the worktree's
parent and the resulting filesystem is the original one minus exactly these
directories; and the walk stops precisely at the repository root, at a
directory outside it, or at the first directory that is not an existing
empty directory. -/
theorem cleanup_walk_spec (repo : FsPath) (fs : List FsPath)
    (worktreeDir : FsPath) :
    ((walkUp repo fs (parentDir worktreeDir)).2.all
        (strictlyBetween repo worktreeDir) = true) ∧
    decide (repo ∈ (walkUp repo fs (parentDir worktreeDir)).2) = false ∧
    removedAllEmpty fs (walkUp repo fs (parentDir worktreeDir)).2 = true ∧
    (walkUp repo fs (parentDir worktreeDir)).2
      = chainFrom (parentDir worktreeDir)
          (walkUp repo fs (parentDir worktreeDir)).2.length ∧
    (walkUp repo fs (parentDir worktreeDir)).1
      = removeEntries fs (walkUp repo fs (parentDir worktreeDir)).2 ∧
    (iterParent (walkUp repo fs (parentDir worktreeDir)).2.length
        (parentDir worktreeDir) = repo ∨
     ¬ (repo <+:
        iterParent (walkUp repo fs (parentDir worktreeDir)).2.length
          (parentDir worktreeDir)) ∨
     isEmptyDir (walkUp repo fs (parentDir worktreeDir)).1
       (iterParent (walkUp repo fs (parentDir worktreeDir)).2.length
         (parentDir worktreeDir)) = false) := by
  obtain ⟨ha, he, hc, hr, hs⟩ :=
    walkUpAux_spec (parentDir worktreeDir).length repo fs
      (parentDir worktreeDir) le_rfl
  refine ⟨?_, ?_, he, hc, hr, hs⟩
  · rw [List.all_eq_true] at ha ⊢
    intro d hd
    have h4 := ha d hd
    simp only [Bool.and_eq_true, decide_eq_true_eq] at h4
    obtain ⟨⟨hne, hpre⟩, hdp⟩ := h4
    have hdw : d ≠ worktreeDir := by
      intro hdweq
      subst hdweq
      by_cases hwnil : d = []
      · subst hwnil
        exact hne (List.eq_nil_of_prefix_nil hpre)
      · have hlt := List.length_dropLast d
        have hle := hdp.length_le
        have hpos : 0 < d.length := List.length_pos.mpr hwnil
        unfold parentDir at hle
        omega
    simp only [strictlyBetween, Bool.and_eq_true, decide_eq_true_eq]
    exact ⟨⟨⟨hne, hpre⟩, hdp⟩, hdw⟩
  · rw [decide_eq_false_iff_not]
    intro hmem
    rw [List.all_eq_true] at ha
    have h4 := ha repo hmem
    simp only [Bool.and_eq_true, decide_eq_true_eq] at h4
    exact h4.1.1 rfl

/-! ## Lemmas about purge -/

theorem isReviewBranch_ne_empty {b : String} (h : isReviewBranch b = true) :
    b ≠ "" := by
  intro hb
  subst hb
  exact absurd h (by decide)

theorem foldl_deleteBranch (del : List String) :
    ∀ (s : RepoState),
      del.foldl deleteBranch s
        = { s with
            branches := s.branches.filter (fun b => !decide (b ∈ del)) } := by
  induction del with
  | nil => intro s; simp
  | cons d ds ih =>
    intro s
    rw [List.foldl_cons, ih]
    have hpt : ∀ a : String,
        ((!decide (a ∈ ds)) && decide (a ≠ d)) = !decide (a ∈ d :: ds) := by
      intro a
      by_cases hd : a = d <;> by_cases hm : a ∈ ds <;> simp [hd, hm]
    simp only [deleteBranch, List.filter_filter, hpt]

theorem purge_deleted_eq (s : RepoState) :
    (purge_review_branches s).2 = s.branches.filter isReviewBranch := by
  unfold purge_review_branches
  exact List.filter_eq_self.mpr (fun a ha => by
    have hm := (List.mem_filter.mp ha).2
    simpa using isReviewBranch_ne_empty hm)

/-- C3: on a repository whose branch list has exactly `N` branches matching
the review namespace, one purge deletes exactly those `N` branches and no
non-matching branch; running purge again immediately afterwards deletes zero
branches and leaves the state unchanged. -/
theorem purge_exact (s : RepoState) (N : Nat)
    (hN : (s.branches.filter isReviewBranch).length = N) :
    (purge_review_branches s).2 = s.branches.filter isReviewBranch ∧
    (purge_review_branches s).2.length = N ∧
    (purge_review_branches s).1.branches
      = s.branches.filter (fun b => !isReviewBranch b) ∧
    (purge_review_branches s).1.fs = s.fs ∧
    (purge_review_branches s).1.worktrees = s.worktrees ∧
    purge_review_branches (purge_review_branches s).1
      = ((purge_review_branches s).1, []) := by
  have hdel := purge_deleted_eq s
  have hfst : (purge_review_branches s).1
      = { s with
          branches := s.branches.filter
            (fun b => !decide (b ∈ s.branches.filter isReviewBranch)) } := by
    show ((purge_review_branches s).2.foldl deleteBranch s)
        = _
    rw [hdel, foldl_deleteBranch]
  have hbr : (purge_review_branches s).1.branches
      = s.branches.filter (fun b => !isReviewBranch b) := by
    rw [hfst]
    refine List.filter_congr ?_
    intro b hb
    by_cases hrev : isReviewBranch b = true
    · have : b ∈ s.branches.filter isReviewBranch :=
        List.mem_filter.mpr ⟨hb, hrev⟩
      simp [this, hrev]
    · have : b ∉ s.branches.filter isReviewBranch := fun hc =>
        hrev (List.mem_filter.mp hc).2
      simp only [Bool.not_eq_true] at hrev
      simp [this, hrev]
  have hlisted2 : (purge_review_branches s).1.branches.filter isReviewBranch
      = [] := by
    rw [hbr, List.filter_filter]
    exact List.filter_eq_nil_iff.mpr (fun a _ => by
      by_cases hrev : isReviewBranch a = true <;> simp [hrev])
  have hdel2 : (purge_review_branches (purge_review_branches s).1).2 = [] := by
    rw [purge_deleted_eq, hlisted2]
  refine ⟨hdel, by rw [hdel, hN], hbr, by rw [hfst], by rw [hfst], ?_⟩
  have hsnd : purge_review_branches (purge_review_branches s).1
      = ((purge_review_branches (purge_review_branches s).1).2.foldl
          deleteBranch (purge_review_branches s).1,
         (purge_review_branches (purge_review_branches s).1).2) := by
    unfold purge_review_branches
    rfl
  rw [hsnd, hdel2]
  rfl

/-- C9: even with `--purge-reviews`, the branch argument is resolved first;
when resolution fails the tool exits with code 1 before listing or deleting
any branch, so the failed purge invocation deletes nothing. -/
theorem purge_requires_resolution (repoDir : FsPath) (s : RepoState)
    (args : Args) (o : Oracle) (h1 : args.repoIsDir = true)
    (h2 : o.branchResolution = Except.error ())
    (h3 : args.purgeReviews = true) :
    (main repoDir s args o).exit = ExitStatus.code 1 ∧
    (main repoDir s args o).state = s ∧
    (main repoDir s args o).purged = [] := by
  simp [main, h1, h2]

/-- C10: the cleanup step is invoked exactly when worktree creation returned
successfully; when `create_review_branch` raises, no cleanup call is made
and the repository state is untouched. -/
theorem mainReview_cleanupRan (repoDir : FsPath) (s : RepoState)
    (orig : String) (dryRun : Bool) (o : Oracle) :
    (mainReview repoDir s orig dryRun o).cleanupRan = true := rfl

theorem cleanup_iff_create (repoDir : FsPath) (s : RepoState) (args : Args)
    (o : Oracle) (orig : String) (h1 : args.repoIsDir = true)
    (h2 : o.branchResolution = Except.ok orig)
    (h3 : args.purgeReviews = false) :
    (main repoDir s args o).cleanupRan = o.worktreeAddOk ∧
    (o.worktreeAddOk = false → (main repoDir s args o).state = s) := by
  constructor
  · cases hw : o.worktreeAddOk
    · simp [main, h1, h2, h3, hw]
    · simp [main, h1, h2, h3, hw, mainReview_cleanupRan]
  · intro h4
    simp [main, h1, h2, h3, h4]

/-! ## Splitting and stripping the template symbolically

These lemmas let the parse of the fixed template be computed line by line
instead of character by character over the whole literal. -/

theorem splitCharsOnAux_no_sep (sep : Char) :
    ∀ (piece rest acc : List Char) (out : List (List Char)),
      (∀ c ∈ piece, c ≠ sep) →
      splitCharsOnAux sep (piece ++ rest) acc out
        = splitCharsOnAux sep rest (piece.reverse ++ acc) out := by
  intro piece
  induction piece with
  | nil => intro rest acc out _; simp
  | cons c p ih =>
    intro rest acc out h
    have hc : c ≠ sep := h c (List.mem_cons_self c p)
    rw [List.cons_append]
    show splitCharsOnAux sep (c :: (p ++ rest)) acc out = _
    rw [splitCharsOnAux, if_neg hc,
      ih rest (c :: acc) out (fun x hx => h x (List.mem_cons_of_mem _ hx))]
    simp [List.append_assoc]

theorem splitCharsOnAux_pyJoin :
    ∀ (L : List String) (l0 : String) (acc : List Char)
      (out : List (List Char)),
      (∀ c ∈ l0.data, c ≠ lineFeed) →
      (∀ l ∈ L, ∀ c ∈ l.data, c ≠ lineFeed) →
      splitCharsOnAux lineFeed (pyJoin "\n" (l0 :: L)).data acc out
        = out.reverse ++ ((acc.reverse ++ l0.data) :: L.map String.data) := by
  intro L
  induction L with
  | nil =>
    intro l0 acc out h0 _
    show splitCharsOnAux lineFeed l0.data acc out = _
    have hsp := splitCharsOnAux_no_sep lineFeed l0.data [] acc out h0
    rw [List.append_nil] at hsp
    rw [hsp]
    show ((l0.data.reverse ++ acc).reverse :: out).reverse = _
    simp
  | cons l1 L ih =>
    intro l0 acc out h0 hL
    have hjoin : (pyJoin "\n" (l0 :: l1 :: L)).data
        = l0.data ++ lineFeed :: (pyJoin "\n" (l1 :: L)).data := by
      show (l0 ++ "\n" ++ pyJoin "\n" (l1 :: L)).data = _
      rw [String.data_append, String.data_append, List.append_assoc]
      rfl
    rw [hjoin, splitCharsOnAux_no_sep lineFeed l0.data _ acc out h0]
    rw [splitCharsOnAux, if_pos rfl]
    rw [ih l1 [] ((l0.data.reverse ++ acc).reverse :: out)
      (hL l1 (List.mem_cons_self l1 L))
      (fun l hl => hL l (List.mem_cons_of_mem _ hl))]
    simp [List.append_assoc]

theorem pySplitLines_pyJoin (L : List String) (l0 : String)
    (h0 : ∀ c ∈ l0.data, c ≠ lineFeed)
    (hL : ∀ l ∈ L, ∀ c ∈ l.data, c ≠ lineFeed) :
    pySplitLines (pyJoin "\n" (l0 :: L)) = l0 :: L := by
  unfold pySplitLines splitCharsOn
  rw [splitCharsOnAux_pyJoin L l0 [] [] h0 hL]
  have hmk : ∀ M : List String, (M.map String.data).map String.mk = M := by
    intro M
    induction M with
    | nil => rfl
    | cons x M ihM => simp only [List.map_cons, ihM]
  simp only [List.reverse_nil, List.nil_append, List.map_cons, hmk]

theorem trimChars_wsEnd (l : List Char) (c0 : Char) (t m : List Char)
    (cz : Char) (h1 : l = c0 :: t) (h2 : l = m ++ [cz])
    (hws0 : c0.isWhitespace = false) (hwsz : cz.isWhitespace = false) :
    trimChars (l ++ [lineFeed]) = l := by
  unfold trimChars
  have hstep1 : (l ++ [lineFeed]).dropWhile Char.isWhitespace
      = l ++ [lineFeed] := by
    conv_lhs => rw [h1]
    rw [List.cons_append, List.dropWhile_cons, hws0]
    simp [h1]
  rw [hstep1]
  have hrev : (l ++ [lineFeed]).reverse = lineFeed :: l.reverse := by simp
  rw [hrev, List.dropWhile_cons]
  have hlf : lineFeed.isWhitespace = true := by decide
  rw [hlf]
  simp only [if_true]
  have hstep2 : l.reverse.dropWhile Char.isWhitespace = l.reverse := by
    conv_lhs => rw [h2]
    rw [List.reverse_append]
    simp [List.dropWhile_cons, hwsz, h2]
  rw [hstep2, List.reverse_reverse]

theorem pyStrip_join_newline (J : String) (c0 : Char) (t m : List Char)
    (cz : Char) (h1 : J.data = c0 :: t) (h2 : J.data = m ++ [cz])
    (hws0 : c0.isWhitespace = false) (hwsz : cz.isWhitespace = false) :
    pyStrip (J ++ "\n") = J := by
  unfold pyStrip
  have hd : (J ++ "\n").data = J.data ++ [lineFeed] := by
    rw [String.data_append]
    rfl
  rw [hd, trimChars_wsEnd J.data c0 t m cz h1 h2 hws0 hwsz]

theorem pyJoin_data_last (sep : String) :
    ∀ (L : List String) (x : String),
      ∃ pre : List Char, (pyJoin sep (L ++ [x])).data = pre ++ x.data := by
  intro L
  induction L with
  | nil => intro x; exact ⟨[], by simp [pyJoin]⟩
  | cons y L ih =>
    intro x
    cases L with
    | nil =>
      refine ⟨y.data ++ sep.data, ?_⟩
      show (y ++ sep ++ x).data = _
      simp [String.data_append, List.append_assoc]
    | cons z L2 =>
      obtain ⟨pre, hp⟩ := ih x
      refine ⟨y.data ++ sep.data ++ pre, ?_⟩
      show (y ++ sep ++ pyJoin sep ((z :: L2) ++ [x])).data = _
      rw [String.data_append, String.data_append, hp]
      simp [List.append_assoc]

/-! ## The fixed template parses successfully -/

set_option maxRecDepth 8000 in
theorem agent_lines_no_newline :
    ∀ l ∈ agentBodyLines, ∀ c ∈ l.data, c ≠ lineFeed := by
  have hb : agentBodyLines.all
      (fun l => l.data.all (fun c => !decide (c = lineFeed))) = true := by
    decide
  intro l hl c hc
  have h1 := (List.all_eq_true.mp hb) l hl
  have h2 := (List.all_eq_true.mp h1) c hc
  simpa using h2

theorem agent_join_head :
    ∃ t, (pyJoin "\n" agentBodyLines).data = '-' :: t := by
  have hj : pyJoin "\n" agentBodyLines
      = "---" ++ "\n" ++ pyJoin "\n" agentTailLines := rfl
  refine ⟨"--".data ++ "\n".data ++ (pyJoin "\n" agentTailLines).data, ?_⟩
  rw [hj, String.data_append, String.data_append]
  simp [List.append_assoc]

set_option maxRecDepth 8000 in
theorem agent_join_last :
    ∃ m, (pyJoin "\n" agentBodyLines).data = m ++ ['.'] := by
  have hdecomp : agentBodyLines.dropLast
      ++ ["Remember, the process! You *must* add the review feedback inline, in the code, as comments, and commit the feedback that belongs together in new FIXUP commits. Also remember the format of the reviews. The output shall only be a single line: the number of FIXUP commits added."]
        = agentBodyLines := by decide
  obtain ⟨pre, hp⟩ :=
    pyJoin_data_last "\n" agentBodyLines.dropLast
      ("Remember, the process! You *must* add the review feedback inline, in the code, as comments, and commit the feedback that belongs together in new FIXUP commits. Also remember the format of the reviews. The output shall only be a single line: the number of FIXUP commits added.")
  rw [hdecomp] at hp
  have hdot : ("Remember, the process! You *must* add the review feedback inline, in the code, as comments, and commit the feedback that belongs together in new FIXUP commits. Also remember the format of the reviews. The output shall only be a single line: the number of FIXUP commits added." : String).data
      = ("Remember, the process! You *must* add the review feedback inline, in the code, as comments, and commit the feedback that belongs together in new FIXUP commits. Also remember the format of the reviews. The output shall only be a single line: the number of FIXUP commits added" : String).data ++ ['.'] := by decide
  rw [hdot] at hp
  exact ⟨pre ++ _, by rw [hp, List.append_assoc]⟩

theorem contentLines_agent : contentLines AGENT_CONTENT = agentBodyLines := by
  obtain ⟨t, h1⟩ := agent_join_head
  obtain ⟨m, h2⟩ := agent_join_last
  show pySplitLines (pyStrip (pyJoin "\n" agentBodyLines ++ "\n"))
    = agentBodyLines
  rw [pyStrip_join_newline _ '-' t m '.' h1 h2 (by decide) (by decide)]
  exact pySplitLines_pyJoin agentTailLines "---"
    (agent_lines_no_newline "---" (List.mem_cons_self _ _))
    (fun l hl => agent_lines_no_newline l (List.mem_cons_of_mem _ hl))

set_option maxRecDepth 8000 in
theorem agent_closing_findIdx :
    agentTailLines.findIdx? (fun l => pyStrip l == "---")
      = Option.some 28 := by
  decide

theorem parse_agent_ok :
    ∃ a, parse_agent_yaml_to_json AGENT_CONTENT = Except.ok a := by
  refine ⟨⟨agentTailLines.take 28,
    pyStrip (pyJoin "\n" (agentTailLines.drop 29))⟩, ?_⟩
  unfold parse_agent_yaml_to_json
  rw [contentLines_agent]
  simp only [agentBodyLines]
  rw [if_neg (by simp [show pyStartsWith "---" "---" = true from by decide])]
  rw [agent_closing_findIdx]

/-! ## Claims about the cleanup guarantee and the exit status -/

theorem main_created (repoDir : FsPath) (s : RepoState) (args : Args)
    (o : Oracle) (orig : String) (h1 : args.repoIsDir = true)
    (h2 : o.branchResolution = Except.ok orig)
    (h3 : args.purgeReviews = false) (h4 : o.worktreeAddOk = true) :
    main repoDir s args o = mainReview repoDir s orig args.dryRun o := by
  simp [main, h1, h2, h3, h4]

theorem mainReview_state (repoDir : FsPath) (s : RepoState) (orig : String)
    (dryRun : Bool) (o : Oracle) :
    (mainReview repoDir s orig dryRun o).state
      = (cleanup_review_branch o.cleanupFault repoDir
          (create_review_branch repoDir s orig o.rand o.date).1
          (create_review_branch repoDir s orig o.rand o.date).2.1
          (create_review_branch repoDir s orig o.rand o.date).2.2).1 := rfl

theorem mainReview_branches (repoDir : FsPath) (s : RepoState)
    (orig : String) (dryRun : Bool) (o : Oracle) :
    (mainReview repoDir s orig dryRun o).state.branches
      = s.branches ++ [reviewBranchName orig o.rand o.date] := by
  rw [mainReview_state, cleanup_fst_branches]
  rfl

/-- C2: for every invocation in which worktree creation succeeded — whatever
the review step then does: normal completion, an exception, or an
interruption, in dry-run or regular mode — the cleanup step runs, the
worktree directory no longer exists on disk at the end, and the created
review branch is still present. -/
theorem cleanup_always_runs (repoDir : FsPath) (s : RepoState) (args : Args)
    (o : Oracle) (orig : String) (h1 : args.repoIsDir = true)
    (h2 : o.branchResolution = Except.ok orig)
    (h3 : args.purgeReviews = false) (h4 : o.worktreeAddOk = true)
    (h5 : o.cleanupFault = CleanupFault.nofault) :
    (main repoDir s args o).cleanupRan = true ∧
    entryExists (main repoDir s args o).state.fs
      (pathJoin repoDir (reviewBranchName orig o.rand o.date)) = false ∧
    decide (reviewBranchName orig o.rand o.date
      ∈ (main repoDir s args o).state.branches) = true := by
  rw [main_created repoDir s args o orig h1 h2 h3 h4]
  refine ⟨rfl, ?_, ?_⟩
  · rw [mainReview_state, h5]
    simp only [entryExists, decide_eq_false_iff_not]
    exact cleanup_nofault_not_mem_fs repoDir _ _ _
  · rw [mainReview_branches]
    simp

/-- C7: an exception anywhere inside the cleanup step is caught and reported
as a warning and never propagates, and it cannot change the exit status
fixed by the create/review phase: the result of `main` has the same exit
status as with a fault-free cleanup. -/
theorem cleanup_never_masks (repoDir : FsPath) (s : RepoState) (args : Args)
    (o : Oracle) (f : CleanupFault) (orig : String)
    (h1 : args.repoIsDir = true) (h2 : o.branchResolution = Except.ok orig)
    (h3 : args.purgeReviews = false) (h4 : o.worktreeAddOk = true)
    (h5 : f ≠ CleanupFault.nofault) :
    (main repoDir s args { o with cleanupFault := f }).exit
      = (main repoDir s args
          { o with cleanupFault := CleanupFault.nofault }).exit ∧
    (main repoDir s args { o with cleanupFault := f }).cleanupWarning
      = Option.some cleanupWarningMsg := by
  rw [main_created repoDir s args { o with cleanupFault := f } orig h1 h2 h3
    h4,
    main_created repoDir s args { o with cleanupFault := CleanupFault.nofault }
      orig h1 h2 h3 h4]
  constructor
  · have hco : ({ o with cleanupFault := f } : Oracle).claudeOutcome
        = o.claudeOutcome := rfl
    have hra : ({ o with cleanupFault := f } : Oracle).rand = o.rand := rfl
    have hda : ({ o with cleanupFault := f } : Oracle).date = o.date := rfl
    have hco2 : ({ o with cleanupFault := CleanupFault.nofault } :
        Oracle).claudeOutcome = o.claudeOutcome := rfl
    have hra2 : ({ o with cleanupFault := CleanupFault.nofault } :
        Oracle).rand = o.rand := rfl
    have hda2 : ({ o with cleanupFault := CleanupFault.nofault } :
        Oracle).date = o.date := rfl
    simp only [mainReview, hco, hra, hda, hco2, hra2, hda2]
  · show (cleanup_review_branch f repoDir _ _ _).2
      = Option.some cleanupWarningMsg
    cases f with
    | nofault => exact absurd rfl h5
    | atWorktreeRemove => rfl
    | atRmtree => rfl
    | atWalk k => rfl

/-! ## Claims about the agent template parsing and the branch name -/

/-- C4: for every agent-definition template in which the opening or the
closing delimiter line is missing, the review invocation fails with the
malformed-agent-definition error and executes no external review-agent
command. -/
theorem malformed_agent_no_spawn (content : String) (worktreeDir : FsPath)
    (branch : String) (dryRun : Bool) (oc : ReviewOutcome)
    (h : hasOpeningDelimiter content = false ∨
      hasClosingDelimiter content = false) :
    (run_claude_review worktreeDir branch dryRun content oc).claudeCmds = []
      ∧ ∃ e, (run_claude_review worktreeDir branch dryRun content oc).outcome
          = StepResult.errorStep e := by
  have herr : ∃ e, parse_agent_yaml_to_json content = Except.error e := by
    rcases hl : contentLines content with _ | ⟨l0, rest⟩
    · refine ⟨"Agent content must start with ---", ?_⟩
      unfold parse_agent_yaml_to_json
      rw [hl]
    · by_cases hop : pyStartsWith l0 "---" = true
      · rcases h with h | h
        · rw [hasOpeningDelimiter, hl] at h
          simp only [] at h
          rw [hop] at h
          exact absurd h (by simp)
        · rw [hasClosingDelimiter, hl] at h
          simp only [List.drop_succ_cons, List.drop_zero] at h
          have hnone : rest.findIdx? (fun l => pyStrip l == "---")
              = Option.none := by
            rw [List.findIdx?_eq_none_iff]
            intro x hx
            have hz := List.any_eq_false.mp h x hx
            simpa using hz
          refine ⟨"Agent content must have closing --- for frontmatter", ?_⟩
          unfold parse_agent_yaml_to_json
          rw [hl]
          simp only []
          rw [if_neg (by simp [hop]), hnone]
      · have hfalse : pyStartsWith l0 "---" = false := by
          cases hq : pyStartsWith l0 "---"
          · rfl
          · exact absurd hq hop
        refine ⟨"Agent content must start with ---", ?_⟩
        unfold parse_agent_yaml_to_json
        rw [hl]
        simp only []
        rw [if_pos hfalse]
  rcases herr with ⟨e, he⟩
  refine ⟨?_, ⟨e, ?_⟩⟩ <;> simp [run_claude_review, he]

/-- C5: the created review branch name is exactly
`BRANCH_PREFIX ++ "/" ++ original ++ "-" ++ date ++ "-" ++ rand`, where the
date has the `%Y-%m-%d` shape and the random suffix is eight lowercase
hexadecimal characters, and the worktree checkout path is the branch name
joined under the repository directory. -/
theorem review_branch_name_form (repoDir : FsPath) (s : RepoState)
    (origBranch rand date : String) (hlen : rand.data.length = 8)
    (hhex : rand.data.all isHexChar = true) (hdate : isIsoDate date = true) :
    (create_review_branch repoDir s origBranch rand date).2.2
      = BRANCH_PREFIX ++ "/" ++ origBranch ++ "-" ++ date ++ "-" ++ rand ∧
    (∃ d r, (create_review_branch repoDir s origBranch rand date).2.2
        = BRANCH_PREFIX ++ "/" ++ origBranch ++ "-" ++ d ++ "-" ++ r ∧
        isIsoDate d = true ∧ r.data.length = 8 ∧
        r.data.all isHexChar = true) ∧
    (create_review_branch repoDir s origBranch rand date).2.1
      = pathJoin repoDir
          ((create_review_branch repoDir s origBranch rand date).2.2) := by
  have hname : (create_review_branch repoDir s origBranch rand date).2.2
      = BRANCH_PREFIX ++ "/" ++ origBranch ++ "-" ++ date ++ "-" ++ rand :=
    rfl
  exact ⟨hname, ⟨date, rand, hname, hdate, hlen, hhex⟩, rfl⟩

/-! ## The dry-run command line and the dry-run side effects (C1) -/

theorem flatMap_shEscapeChar_id {l : List Char} (h : ∀ c ∈ l, c ≠ apos) :
    l.flatMap shEscapeChar = l := by
  induction l with
  | nil => rfl
  | cons c cs ih =>
    rw [List.flatMap_cons, shEscapeChar,
      if_neg (h c (List.mem_cons_self c cs)),
      ih (fun x hx => h x (List.mem_cons_of_mem _ hx))]
    rfl

theorem data_ne_nil_of_ne_empty {s : String} (h : s ≠ "") : s.data ≠ [] :=
  fun hd => h (String.ext hd)

set_option maxRecDepth 4000 in
theorem promptBefore_ne_empty : promptBefore ≠ "" := by decide

theorem prompt_ne_empty (branch : String) : PROMPT_TEMPLATE branch ≠ "" := by
  intro hq
  have hd : (PROMPT_TEMPLATE branch).data = [] := by rw [hq]
  simp only [PROMPT_TEMPLATE, String.data_append, List.append_eq_nil] at hd
  exact data_ne_nil_of_ne_empty promptBefore_ne_empty hd.1.1

set_option maxRecDepth 4000 in
theorem promptBefore_not_safe : promptBefore.data.all shlexSafeChar = false := by
  decide

theorem prompt_not_safe (branch : String) :
    (PROMPT_TEMPLATE branch).data.all shlexSafeChar = false := by
  simp only [PROMPT_TEMPLATE, String.data_append, List.all_append,
    promptBefore_not_safe, Bool.false_and]

theorem shlexQuote_prompt_data (branch : String)
    (h : ∀ c ∈ branch.data, c ≠ apos) :
    (shlexQuote (PROMPT_TEMPLATE branch)).data
      = [apos] ++ promptBefore.data.flatMap shEscapeChar ++ branch.data
        ++ promptAfter.data.flatMap shEscapeChar ++ [apos] := by
  rw [shlexQuote, if_neg (prompt_ne_empty branch)]
  rw [if_neg (by rw [prompt_not_safe branch]; simp)]
  show [apos] ++ (PROMPT_TEMPLATE branch).data.flatMap shEscapeChar ++ [apos]
    = _
  simp only [PROMPT_TEMPLATE, String.data_append, List.flatMap_append,
    flatMap_shEscapeChar_id h, List.append_assoc]

theorem dryRun_line_decomp (aj prompt : String) :
    "  " ++ pyJoin " " ((claudeCmd aj prompt).map shlexQuote)
      = ("  " ++ shlexQuote "claude" ++ " " ++ shlexQuote "--allowed-tools"
          ++ " " ++ shlexQuote ALLOWED_TOOLS ++ " " ++ shlexQuote "--agents"
          ++ " " ++ shlexQuote aj ++ " " ++ shlexQuote "-p" ++ " ")
        ++ shlexQuote prompt := by
  apply String.ext
  simp [claudeCmd, List.map, pyJoin, String.data_append, List.append_assoc]

/-- C1 counterexample: on a concrete repository with branch list `["main"]`,
a `--dry-run` invocation changes the branch set — the review branch is
created and persists — refuting the claim that dry-run creates, modifies,
and deletes no branch and leaves the repository's branch set unchanged. -/
theorem dry_run_counterexample :
    (main demoRepoDir demoState demoDryArgs demoOracle).state.branches
      ≠ demoState.branches := by
  decide

theorem mainReview_claudeCmds (repoDir : FsPath) (s : RepoState)
    (orig : String) (dryRun : Bool) (o : Oracle) :
    (mainReview repoDir s orig dryRun o).claudeCmds
      = (run_claude_review
          (create_review_branch repoDir s orig o.rand o.date).2.1
          (create_review_branch repoDir s orig o.rand o.date).2.2
          dryRun AGENT_CONTENT o.claudeOutcome).claudeCmds := by
  simp only [mainReview]

theorem mainReview_printed (repoDir : FsPath) (s : RepoState)
    (orig : String) (dryRun : Bool) (o : Oracle) :
    (mainReview repoDir s orig dryRun o).printed
      = ["Reviewing " ++ orig ++ " in " ++ pathToString repoDir]
        ++ (run_claude_review
            (create_review_branch repoDir s orig o.rand o.date).2.1
            (create_review_branch repoDir s orig o.rand o.date).2.2
            dryRun AGENT_CONTENT o.claudeOutcome).printed
        ++ (match (run_claude_review
              (create_review_branch repoDir s orig o.rand o.date).2.1
              (create_review_branch repoDir s orig o.rand o.date).2.2
              dryRun AGENT_CONTENT o.claudeOutcome).outcome with
            | StepResult.ok =>
              ["", "The review is done. Check out branch "
                ++ (create_review_branch repoDir s orig o.rand o.date).2.2]
            | StepResult.errorStep e => ["Error: " ++ e]
            | StepResult.interrupted => [])
        ++ (match (cleanup_review_branch o.cleanupFault repoDir
              (create_review_branch repoDir s orig o.rand o.date).1
              (create_review_branch repoDir s orig o.rand o.date).2.1
              (create_review_branch repoDir s orig o.rand o.date).2.2).2 with
            | Option.some w => [w]
            | Option.none => []) := by
  simp only [mainReview]

/-- C1 (amended): with `--dry-run` on a valid repository with a resolvable
ref, no external review-agent command is executed and a printed command line
contains the literal new branch name; however the review branch is still
created — the branch set afterwards is the old one plus exactly the new
review branch — while the worktree directory is created and then removed by
cleanup, so it no longer exists at the end. -/
theorem dry_run_amended (repoDir : FsPath) (s : RepoState) (args : Args)
    (o : Oracle) (orig : String) (h1 : args.repoIsDir = true)
    (h2 : o.branchResolution = Except.ok orig)
    (h3 : args.purgeReviews = false) (h4 : o.worktreeAddOk = true)
    (h5 : o.cleanupFault = CleanupFault.nofault) (h6 : args.dryRun = true)
    (h7 : ∀ c ∈ (reviewBranchName orig o.rand o.date).data, c ≠ apos) :
    (main repoDir s args o).claudeCmds = [] ∧
    (main repoDir s args o).state.branches
      = s.branches ++ [reviewBranchName orig o.rand o.date] ∧
    entryExists (main repoDir s args o).state.fs
      (pathJoin repoDir (reviewBranchName orig o.rand o.date)) = false ∧
    (∃ line ∈ (main repoDir s args o).printed, ∃ a b : List Char,
      line.data = a ++ (reviewBranchName orig o.rand o.date).data ++ b) := by
  rw [main_created repoDir s args o orig h1 h2 h3 h4]
  obtain ⟨agent, hp⟩ := parse_agent_ok
  have hbr : (create_review_branch repoDir s orig o.rand o.date).2.2
      = reviewBranchName orig o.rand o.date := rfl
  have hrr : run_claude_review
      (create_review_branch repoDir s orig o.rand o.date).2.1
      (create_review_branch repoDir s orig o.rand o.date).2.2
      args.dryRun AGENT_CONTENT o.claudeOutcome
      = ⟨dryRunLines (create_review_branch repoDir s orig o.rand o.date).2.1
          (claudeCmd (agentsJsonRepr agent)
            (PROMPT_TEMPLATE (reviewBranchName orig o.rand o.date))),
         [], StepResult.ok⟩ := by
    rw [h6]
    simp only [run_claude_review, hp, hbr, if_true]
  refine ⟨?_, ?_, ?_, ?_⟩
  · rw [mainReview_claudeCmds, hrr]
  · exact mainReview_branches repoDir s orig args.dryRun o
  · rw [mainReview_state, h5]
    simp only [entryExists, decide_eq_false_iff_not]
    exact cleanup_nofault_not_mem_fs repoDir _ _ _
  · rw [mainReview_printed, hrr]
    refine ⟨"  " ++ pyJoin " "
      ((claudeCmd (agentsJsonRepr agent)
        (PROMPT_TEMPLATE (reviewBranchName orig o.rand o.date))).map
          shlexQuote), ?_, ?_⟩
    · simp [dryRunLines]
    · rw [dryRun_line_decomp, String.data_append,
        shlexQuote_prompt_data (reviewBranchName orig o.rand o.date) h7]
      refine ⟨("  " ++ shlexQuote "claude" ++ " "
          ++ shlexQuote "--allowed-tools" ++ " " ++ shlexQuote ALLOWED_TOOLS
          ++ " " ++ shlexQuote "--agents" ++ " "
          ++ shlexQuote (agentsJsonRepr agent) ++ " " ++ shlexQuote "-p"
          ++ " ").data
        ++ [apos] ++ promptBefore.data.flatMap shEscapeChar,
        promptAfter.data.flatMap shEscapeChar ++ [apos], ?_⟩
      simp [List.append_assoc]

/-! ## Concrete witnesses for the claim theorems with hypotheses -/

/-- Witness for C2 at a concrete repository, state and oracle. -/
theorem cleanup_always_runs_witness :
    demoWetArgs.repoIsDir = true ∧
    ((main demoRepoDir demoState demoWetArgs demoOracle).cleanupRan = true ∧
     entryExists (main demoRepoDir demoState demoWetArgs demoOracle).state.fs
       (pathJoin demoRepoDir
         (reviewBranchName "main" demoOracle.rand demoOracle.date)) = false ∧
     decide (reviewBranchName "main" demoOracle.rand demoOracle.date
       ∈ (main demoRepoDir demoState demoWetArgs demoOracle).state.branches)
         = true) :=
  ⟨rfl, cleanup_always_runs demoRepoDir demoState demoWetArgs demoOracle
    "main" rfl rfl rfl rfl rfl⟩

/-- Witness for C3 on a repository with exactly two review branches. -/
theorem purge_exact_witness :
    (demoPurgeState.branches.filter isReviewBranch).length = 2 ∧
    ((purge_review_branches demoPurgeState).2
        = demoPurgeState.branches.filter isReviewBranch ∧
     (purge_review_branches demoPurgeState).2.length = 2 ∧
     (purge_review_branches demoPurgeState).1.branches
        = demoPurgeState.branches.filter (fun b => !isReviewBranch b) ∧
     (purge_review_branches demoPurgeState).1.fs = demoPurgeState.fs ∧
     (purge_review_branches demoPurgeState).1.worktrees
        = demoPurgeState.worktrees ∧
     purge_review_branches (purge_review_branches demoPurgeState).1
        = ((purge_review_branches demoPurgeState).1, [])) :=
  ⟨by decide, purge_exact demoPurgeState 2 (by decide)⟩

/-- Witness for C4 on a template with no delimiter lines at all. -/
theorem malformed_agent_no_spawn_witness :
    (hasOpeningDelimiter "no delimiters here" = false ∨
      hasClosingDelimiter "no delimiters here" = false) ∧
    ((run_claude_review demoRepoDir
        "claude-review-agent/main-2026-10-12-0a1b2c3d" true
        "no delimiters here" ReviewOutcome.ok).claudeCmds = [] ∧
     ∃ e, (run_claude_review demoRepoDir
        "claude-review-agent/main-2026-10-12-0a1b2c3d" true
        "no delimiters here" ReviewOutcome.ok).outcome
          = StepResult.errorStep e) :=
  ⟨Or.inl (by decide),
   malformed_agent_no_spawn "no delimiters here" demoRepoDir
     "claude-review-agent/main-2026-10-12-0a1b2c3d" true ReviewOutcome.ok
     (Or.inl (by decide))⟩

/-- Witness for C5 at a concrete random suffix and date. -/
theorem review_branch_name_form_witness :
    ("0a1b2c3d" : String).data.length = 8 ∧
    ((create_review_branch demoRepoDir demoState "main" "0a1b2c3d"
        "2026-10-12").2.2
      = BRANCH_PREFIX ++ "/" ++ "main" ++ "-" ++ "2026-10-12" ++ "-"
        ++ "0a1b2c3d" ∧
     (∃ d r, (create_review_branch demoRepoDir demoState "main" "0a1b2c3d"
          "2026-10-12").2.2
        = BRANCH_PREFIX ++ "/" ++ "main" ++ "-" ++ d ++ "-" ++ r ∧
        isIsoDate d = true ∧ r.data.length = 8 ∧
        r.data.all isHexChar = true) ∧
     (create_review_branch demoRepoDir demoState "main" "0a1b2c3d"
        "2026-10-12").2.1
      = pathJoin demoRepoDir
          ((create_review_branch demoRepoDir demoState "main" "0a1b2c3d"
            "2026-10-12").2.2)) :=
  ⟨by decide, review_branch_name_form demoRepoDir demoState "main"
    "0a1b2c3d" "2026-10-12" (by decide) (by decide) (by decide)⟩

/-- Witness for C7 with a fault injected at the rmtree step. -/
theorem cleanup_never_masks_witness :
    ((main demoRepoDir demoState demoWetArgs
        { demoOracle with cleanupFault := CleanupFault.atRmtree }).exit
      = (main demoRepoDir demoState demoWetArgs
          { demoOracle with
            cleanupFault := CleanupFault.nofault }).exit) ∧
    (main demoRepoDir demoState demoWetArgs
        { demoOracle with
          cleanupFault := CleanupFault.atRmtree }).cleanupWarning
      = Option.some cleanupWarningMsg :=
  cleanup_never_masks demoRepoDir demoState demoWetArgs demoOracle
    CleanupFault.atRmtree "main" rfl rfl rfl rfl (by decide)

/-- Witness for C9: a purge invocation whose ref resolution fails. -/
theorem purge_requires_resolution_witness :
    (main demoRepoDir demoPurgeState demoPurgeArgs demoFailOracle).exit
        = ExitStatus.code 1 ∧
    (main demoRepoDir demoPurgeState demoPurgeArgs demoFailOracle).state
        = demoPurgeState ∧
    (main demoRepoDir demoPurgeState demoPurgeArgs demoFailOracle).purged
        = [] :=
  purge_requires_resolution demoRepoDir demoPurgeState demoPurgeArgs
    demoFailOracle rfl rfl rfl

/-- Witness for C10: worktree creation fails, so cleanup is not invoked. -/
theorem cleanup_iff_create_witness :
    (main demoRepoDir demoState demoWetArgs demoNoAddOracle).cleanupRan
        = demoNoAddOracle.worktreeAddOk ∧
    (demoNoAddOracle.worktreeAddOk = false →
      (main demoRepoDir demoState demoWetArgs demoNoAddOracle).state
        = demoState) :=
  cleanup_iff_create demoRepoDir demoState demoWetArgs demoNoAddOracle
    "main" rfl rfl rfl

/-- Witness for the amended C1 at a concrete dry-run invocation. -/
theorem dry_run_amended_witness :
    (reviewBranchName "main" demoOracle.rand demoOracle.date).data.all
        (fun c => !decide (c = apos)) = true ∧
    ((main demoRepoDir demoState demoDryArgs demoOracle).claudeCmds = [] ∧
     (main demoRepoDir demoState demoDryArgs demoOracle).state.branches
        = demoState.branches
          ++ [reviewBranchName "main" demoOracle.rand demoOracle.date] ∧
     entryExists
       (main demoRepoDir demoState demoDryArgs demoOracle).state.fs
       (pathJoin demoRepoDir
         (reviewBranchName "main" demoOracle.rand demoOracle.date))
         = false ∧
     (∃ line ∈ (main demoRepoDir demoState demoDryArgs demoOracle).printed,
       ∃ a b : List Char, line.data
         = a ++ (reviewBranchName "main" demoOracle.rand
             demoOracle.date).data ++ b)) :=
  ⟨by decide,
   dry_run_amended demoRepoDir demoState demoDryArgs demoOracle "main"
     rfl rfl rfl rfl rfl rfl
     (by
       have hall : (reviewBranchName "main" demoOracle.rand
           demoOracle.date).data.all (fun c => !decide (c = apos))
             = true := by decide
       intro c hc
       have hb := List.all_eq_true.mp hall c hc
       simpa using hb)⟩

end ClaudeReviewAgent
